import Mathlib

/-!
# Verification of the videotube ingestion pipeline and range streaming responder

Shallow embedding of the Express server (`server.js`, with its Cloudflare R2
variant) of the videotube repository.  Pure JavaScript computations become Lean
functions; the stateful request handlers become explicit functions from an
environment describing the request and the outcomes of the external calls
(ffprobe, ffmpeg screenshots, object-store puts, record save) to a result
record holding the HTTP status, the persisted record, the final temp-resource
state and the ordered trace of observable events.

JavaScript numbers that may be `NaN` (results of `parseInt`) are modelled as
`Option Int` with `none` playing the role of `NaN`; every comparison against
`NaN` is `false`, exactly as in JavaScript.
-/

namespace Videotube

/-! ## JavaScript string and number primitives used by the server -/

/-- JS `parseInt(s, 10)` digit accumulator: consumes leading decimal digits,
returning `none` when no digit was consumed (`NaN`). -/
def parseDigits : List Char → Option Nat → Option Nat
  | [], acc => acc
  | c :: cs, acc =>
    if c.isDigit then parseDigits cs (some ((acc.getD 0) * 10 + (c.toNat - 48)))
    else acc

/-- JS `parseInt(s, 10)`: optional leading whitespace and sign, then the longest
prefix of decimal digits; `NaN` (here `none`) when no digit is present. -/
def parseIntJs (s : List Char) : Option Int :=
  let t := s.dropWhile (fun c => c = ' ')
  match t with
  | '-' :: rest => (parseDigits rest none).map (fun n => -(n : Int))
  | '+' :: rest => (parseDigits rest none).map (fun n => (n : Int))
  | _ => (parseDigits t none).map (fun n => (n : Int))

/-- Replace the first occurrence of `pat` in `s` by the empty string:
JS `s.replace(/bytes=/, '')`. -/
def removeFirst (pat : List Char) : List Char → List Char
  | [] => []
  | c :: cs =>
    if (c :: cs).take pat.length = pat then (c :: cs).drop pat.length
    else c :: removeFirst pat cs

/-- JS `s.split('-')`. -/
def splitOnDash : List Char → List (List Char)
  | [] => [[]]
  | c :: cs =>
    if c = '-' then [] :: splitOnDash cs
    else
      match splitOnDash cs with
      | [] => [[c]]
      | g :: gs => (c :: g) :: gs

/-- Rendering of a possibly-`NaN` JS number into a header string. -/
def jsNumStr : Option Int → String
  | none => "NaN"
  | some i => toString i

/-- JS `a >= b` where either side may be `NaN`: any comparison with `NaN`
is `false`. -/
def jsGe : Option Int → Option Int → Bool
  | some a, some b => a ≥ b
  | _, _ => false

/-- JS `a < b` where either side may be `NaN`. -/
def jsLt : Option Int → Option Int → Bool
  | some a, some b => a < b
  | _, _ => false

/-- JS `end - start + 1` with `NaN` propagation. -/
def jsSpan : Option Int → Option Int → Option Int
  | some s, some e => some (e - s + 1)
  | _, _ => none

/-! ## The range streaming responder (`GET /api/stream/:videoId`, range branch)

The server fetches the *whole* object from MinIO and filters the delivered
chunks:

```
let bytesRead = 0;
dataStream.on('data', (chunk) => {
  if (bytesRead >= start && bytesRead < end) { res.write(chunk); }
  bytesRead += chunk.length;
  if (bytesRead >= end) { dataStream.destroy(); res.end(); }
});
```

`writeChunks` is that event loop: the object arrives as a list of chunks
(each a list of bytes), and the result is the concatenation of everything
written to the response before the stream is destroyed or ends. -/

def writeChunks (start endv : Option Int) : List (List Nat) → Int → List Nat
  | [], _ => []
  | c :: cs, bytesRead =>
    let wrote := if jsGe (some bytesRead) start && jsLt (some bytesRead) endv then c else []
    let bytesRead' := bytesRead + c.length
    if jsGe (some bytesRead') endv then wrote
    else wrote ++ writeChunks start endv cs bytesRead'

/-- Parse the `Range` header against the object size, as lines 303–305 of the
server do: strip `bytes=`, split on `-`, `parseInt` the first part, and take
the second part when it is a non-empty (truthy) string, else `fileSize - 1`. -/
def parseRangeParts (header : List Char) (fileSize : Nat) : Option Int × Option Int :=
  let parts := splitOnDash (removeFirst ("bytes=".toList) header)
  let s := parseIntJs (parts.headD [])
  let p := parts.getD 1 []
  let e := if p = [] then some ((fileSize : Int) - 1) else parseIntJs p
  (s, e)

/-- The HTTP response produced by the range branch of the stream endpoint. -/
structure RangeResponse where
  status : Nat
  contentRange : String
  acceptRanges : String
  contentLength : Option Int
  contentType : String
  body : List Nat
deriving DecidableEq

/-- The full range branch of `GET /api/stream/:videoId`: parses the header,
unconditionally writes status 206 with the computed headers, then runs the
chunk-filtering loop over the object delivered by the store as `chunks`. -/
def streamRangeBranch (header : List Char) (fileSize : Nat)
    (chunks : List (List Nat)) : RangeResponse :=
  let p := parseRangeParts header fileSize
  { status := 206
    contentRange := "bytes " ++ jsNumStr p.1 ++ "-" ++ jsNumStr p.2 ++ "/" ++ toString fileSize
    acceptRanges := "bytes"
    contentLength := jsSpan p.1 p.2
    contentType := "video/mp4"
    body := writeChunks p.1 p.2 chunks 0 }

/-- The byte window `[s..e]` of the full object — the slice the specification
says a valid range request must receive. -/
def sliceBytes (obj : List Nat) (s e : Nat) : List Nat :=
  (obj.drop s).take (e + 1 - s)

/-! ## The upload pipeline (`POST /api/upload`)

The handler is modelled as a function from an `UploadEnv` — the request shape
plus the outcome of every external call it makes — to an `UploadOutcome`
recording the HTTP status, the persisted record, whether the multer temp file
and the thumbnail temp directory still exist afterwards, and the ordered trace
of observable events. -/

/-- Observable events of one `POST /api/upload` run, in execution order. -/
inductive Event
  | probe
  | genThumbs
  | putObject (key : String)
  | saveRecord
  | unlinkTempFile
  | rmThumbDir
  | respond (status : Nat)
deriving DecidableEq

/-- The persisted MongoDB `Video` document (the spec's `MediaAsset`). -/
structure VideoRec where
  videoId : String
  title : String
  description : String
  filename : String
  duration : Nat
  thumbnailCount : Nat
  views : Nat
deriving DecidableEq

/-- Request shape and external-call outcomes of one upload run.  `hasFile`
says whether the multipart request carried a `video` file part (multer writes
the temp file exactly in that case); `tempName` is the extension-free
multer-generated basename, from which `path.parse(...).name` derives the
`videoId`; `thumbDirFiles` is what `fs.readdirSync` returns for the thumbnail
directory after a successful generation step. -/
structure UploadEnv where
  hasFile : Bool
  tempName : String
  title : String
  description : String
  probeOk : Bool
  duration : Nat
  thumbsOk : Bool
  thumbDirFiles : List String
  videoUploadOk : Bool
  thumbUploadOk : String → Bool
  saveOk : Bool

/-- Result of one upload run. -/
structure UploadOutcome where
  status : Nat
  saved : Option VideoRec
  tempFileExists : Bool
  tempDirExists : Bool
  events : List Event
deriving DecidableEq

/-- JS `s.endsWith(suffix)`. -/
def jsEndsWith (s suffix : String) : Bool :=
  let sl := s.toList
  let tl := suffix.toList
  sl.drop (sl.length - tl.length) = tl

/-- JS default string comparison (`a <= b` on code units), on char lists. -/
def jsStrLeL : List Char → List Char → Bool
  | [], _ => true
  | _ :: _, [] => false
  | a :: as, b :: bs =>
    if a.toNat < b.toNat then true
    else if b.toNat < a.toNat then false
    else jsStrLeL as bs

/-- JS default string comparison on strings. -/
def jsStrLe (a b : String) : Bool := jsStrLeL a.toList b.toList

/-- One insertion step of the comparison sort behind JS `Array.prototype.sort`
with the default (string, code-unit) comparator. -/
def sortInsert (x : String) : List String → List String
  | [] => [x]
  | y :: ys => if jsStrLe x y then x :: y :: ys else y :: sortInsert x ys

/-- JS `array.sort()` with the default comparator: since the thumbnail
filenames are pairwise distinct, any comparison sort yields the same,
uniquely determined code-unit-ascending order; insertion sort models it. -/
def jsSort : List String → List String
  | [] => []
  | x :: xs => sortInsert x (jsSort xs)

/-- The object key of a thumbnail upload. -/
def thumbKey (videoId f : String) : String :=
  "thumbnails/" ++ videoId ++ "/" ++ f

/-- The `catch` block of the handler: remove the temp file and the thumbnail
directory when they exist (`fs.existsSync` guards), then answer 500. -/
def failWith (evts : List Event) (fileExists dirExists : Bool) : UploadOutcome :=
  { status := 500
    saved := none
    tempFileExists := false
    tempDirExists := false
    events := evts ++ (if fileExists then [Event.unlinkTempFile] else [])
      ++ (if dirExists then [Event.rmThumbDir] else []) ++ [Event.respond 500] }

/-- The `for (const thumbFile of thumbnailFiles)` upload loop: one `putObject`
attempt per file in list order, aborting (throwing) at the first failure.
Returns the put events that happened and whether the loop completed. -/
def uploadThumbsLoop (videoId : String) (ok : String → Bool) :
    List String → List Event × Bool
  | [] => ([], true)
  | f :: fs =>
    if ok f then
      let r := uploadThumbsLoop videoId ok fs
      (Event.putObject (thumbKey videoId f) :: r.1, r.2)
    else ([Event.putObject (thumbKey videoId f)], false)

/-- The `.jpg`-filtered, JS-sorted listing of the thumbnail directory, as the
handler computes it before the upload loop. -/
def sortedThumbFiles (env : UploadEnv) : List String :=
  jsSort (env.thumbDirFiles.filter (fun f => jsEndsWith f ".jpg"))

/-- The full `POST /api/upload` handler, multer step included.  Faithful to
the server: validation answers 400 *without* touching the multer temp file;
every later failure lands in the `catch` block (`failWith`); the record is
constructed and saved only after the video and all thumbnails uploaded; the
success path unlinks the temp file, removes the thumbnail directory and
answers 200. -/
def runUpload (env : UploadEnv) : UploadOutcome :=
  if env.hasFile = false ∨ env.title = "" then
    { status := 400
      saved := none
      tempFileExists := env.hasFile
      tempDirExists := false
      events := [Event.respond 400] }
  else
    let videoId := env.tempName
    if env.probeOk = false then failWith [Event.probe] true false
    else if env.thumbsOk = false then
      failWith [Event.probe, Event.genThumbs] true true
    else
      let videoKey := "videos/" ++ videoId ++ ".mp4"
      if env.videoUploadOk = false then
        failWith [Event.probe, Event.genThumbs, Event.putObject videoKey] true true
      else
        let thumbnailFiles := sortedThumbFiles env
        let r := uploadThumbsLoop videoId env.thumbUploadOk thumbnailFiles
        let evts := [Event.probe, Event.genThumbs, Event.putObject videoKey] ++ r.1
        if r.2 = false then failWith evts true true
        else if env.saveOk = false then failWith (evts ++ [Event.saveRecord]) true true
        else
          { status := 200
            saved := some
              { videoId := videoId
                title := env.title
                description := env.description
                filename := videoId ++ ".mp4"
                duration := env.duration
                thumbnailCount := thumbnailFiles.length
                views := 0 }
            tempFileExists := false
            tempDirExists := false
            events := evts ++ [Event.saveRecord, Event.unlinkTempFile,
              Event.rmThumbDir, Event.respond 200] }

/-! ## View counting (`GET /api/videos/:videoId`) and record mutations

The handlers that touch a given record are modelled against the store's state
for that record (`Option VideoRec`).  `GET /api/videos/:videoId` does
`video.views += 1; await video.save()` when the record exists, else 404. -/

/-- `video.views += 1` followed by `save`. -/
def incViews (r : VideoRec) : VideoRec := { r with views := r.views + 1 }

/-- The `GET /api/videos/:videoId` handler on the state of the addressed
record: status and new state. -/
def getVideoHandler (db : Option VideoRec) : Nat × Option VideoRec :=
  match db with
  | none => (404, none)
  | some r => (200, some (incViews r))

/-- Every server operation that can read or write the record of one fixed
`videoId`. -/
inductive SysOp
  | ingest (env : UploadEnv)
  | getOne
  | listAll
  | streamReq (header : Option (List Char))

/-- Effect of each operation on the addressed record.  `ingest` can only
create the record (the unique index on `videoId` makes a duplicate save throw,
leaving the existing record unchanged); `GET /api/videos` and
`GET /api/stream/:videoId` never write. -/
def applyOp (op : SysOp) (db : Option VideoRec) : Option VideoRec :=
  match op with
  | SysOp.ingest env =>
    match db with
    | some r => some r
    | none => (runUpload env).saved
  | SysOp.getOne => (getVideoHandler db).2
  | SysOp.listAll => db
  | SysOp.streamReq _ => db

/-! ## The object-store put strategy (`uploadToR2`, R2 variant)

`uploadToR2` chooses between a single `PutObjectCommand` and a managed
multipart `Upload` purely by file size:
below `100 * 1024 * 1024` bytes a single-shot put, otherwise a multipart
upload with `partSize: 100 * 1024 * 1024` and `queueSize: 4`. -/

/-- The transfer plan `uploadToR2` commits to. -/
inductive R2Plan
  | singlePut
  | multipart (partSize queueSize : Nat)
deriving DecidableEq

/-- Size-driven strategy selection of `uploadToR2`. -/
def uploadToR2plan (fileSize : Nat) : R2Plan :=
  if fileSize < 100 * 1024 * 1024 then R2Plan.singlePut
  else R2Plan.multipart (100 * 1024 * 1024) 4

/-! ## Observation helpers and concrete example inputs -/

/-- Boolean check that `p` is an initial segment of `s`. -/
def listIsPre : List Char → List Char → Bool
  | [], _ => true
  | _ :: _, [] => false
  | a :: as, b :: bs => a == b && listIsPre as bs

/-- Whether an object key addresses a thumbnail (`thumbnails/...`). -/
def isThumbObjectKey (k : String) : Bool :=
  listIsPre ("thumbnails/".toList) k.toList

/-- Project an event to the thumbnail key it uploads, if any. -/
def thumbKeyOf : Event → Option String
  | Event.putObject k => if isThumbObjectKey k then some k else none
  | _ => none

/-- The thumbnail object keys an upload run put, in upload order. -/
def thumbPutsOf (o : UploadOutcome) : List String :=
  o.events.filterMap thumbKeyOf

/-- A fully successful upload environment: the default ten generated
thumbnails are all present, every external call succeeds. -/
def envAllOk : UploadEnv where
  hasFile := true
  tempName := "abc123"
  title := "Demo"
  description := ""
  probeOk := true
  duration := 30
  thumbsOk := true
  thumbDirFiles := ["thumb_1.jpg", "thumb_2.jpg", "thumb_3.jpg", "thumb_4.jpg",
    "thumb_5.jpg", "thumb_6.jpg", "thumb_7.jpg", "thumb_8.jpg", "thumb_9.jpg",
    "thumb_10.jpg"]
  videoUploadOk := true
  thumbUploadOk := fun _ => true
  saveOk := true

/-- A concrete persisted record for witnesses. -/
def demoRec : VideoRec where
  videoId := "abc123"
  title := "Demo"
  description := ""
  filename := "abc123.mp4"
  duration := 30
  thumbnailCount := 10
  views := 7

/-! ## Theorems -/

/-- C1: the claim — a valid `bytes=start-end` request with
`0 ≤ start ≤ end < size` yields 206, `Content-Range: bytes start-end/size`,
and a body byte-identical to the slice — fails on the code.  At the failing
input (3-byte object `[10,20,30]` delivered by the store as a single chunk,
request `bytes=1-2`) the server sends the claimed status and headers but an
*empty* body, while the slice the claim demands is `[20,30]`: the chunk
filter `bytesRead >= start && bytesRead < end` skips every chunk whose start
offset is below `start`, so the body contradicts the server's own
`Content-Length`. -/
theorem c1_range_body_not_slice :
    (streamRangeBranch ("bytes=1-2".toList) 3 [[10, 20, 30]]).status = 206 ∧
    (streamRangeBranch ("bytes=1-2".toList) 3 [[10, 20, 30]]).contentRange = "bytes 1-2/3" ∧
    (streamRangeBranch ("bytes=1-2".toList) 3 [[10, 20, 30]]).contentLength = some 2 ∧
    (streamRangeBranch ("bytes=1-2".toList) 3 [[10, 20, 30]]).body = [] ∧
    sliceBytes [10, 20, 30] 1 2 = [20, 30] := by decide

/-- C6, counterexample: a malformed range header is *not* rejected.  For
`bytes=abc-def` the endpoint still answers 206 (not a 4xx) with
`Content-Range: bytes NaN-NaN/100`, and for `bytes=50-10` (start > end) it
answers 206 with a negative `Content-Length`. -/
theorem c6_malformed_still_206 :
    (streamRangeBranch ("bytes=abc-def".toList) 100 [[1, 2, 3]]).status = 206 ∧
    (streamRangeBranch ("bytes=abc-def".toList) 100 [[1, 2, 3]]).contentRange
      = "bytes NaN-NaN/100" ∧
    (streamRangeBranch ("bytes=50-10".toList) 20 [[1, 2, 3]]).status = 206 ∧
    (streamRangeBranch ("bytes=50-10".toList) 20 [[1, 2, 3]]).contentLength = some (-39) := by
  decide

/-- C6, amended: the stream endpoint performs no validation of the range
header whatsoever — whenever a `Range` header is present it responds 206,
for every header string, object size and store chunking. -/
theorem c6_amended_always_206 (header : List Char) (fileSize : Nat)
    (chunks : List (List Nat)) :
    (streamRangeBranch header fileSize chunks).status = 206 := rfl

/-- C7: the claim — `bytes=start-` serves from `start` through the last byte
inclusive — fails on the code.  The parser does default `end` to `size - 1`
(first conjunct), but at the failing input (3-byte object `[10,20,30]`
delivered in single-byte chunks, request `bytes=1-`) the body is `[20]`,
missing the final byte the claim requires, because the loop condition
`bytesRead < end` excludes the chunk starting at offset `end` and the stream
is destroyed once `bytesRead >= end`. -/
theorem c7_default_end_body_short :
    parseRangeParts ("bytes=1-".toList) 3 = (some 1, some 2) ∧
    (streamRangeBranch ("bytes=1-".toList) 3 [[10], [20], [30]]).body = [20] ∧
    sliceBytes [10, 20, 30] 1 2 = [20, 30] := by decide

/-- C10: when the parsed `start` and `end` are numeric with
`start < size ≤ end`, the endpoint responds 206 and uses the client-supplied
`end` unclamped: `Content-Range: bytes start-end/size` with `end ≥ size`, and
`Content-Length = end - start + 1`, which exceeds the `size - start` object
bytes actually available from `start`. -/
theorem c10_end_unclamped (header : List Char) (fileSize : Nat)
    (chunks : List (List Nat)) (s e : Int)
    (hparse : parseRangeParts header fileSize = (some s, some e))
    (_hlt : s < (fileSize : Int)) (hge : (fileSize : Int) ≤ e) :
    (streamRangeBranch header fileSize chunks).status = 206 ∧
    (streamRangeBranch header fileSize chunks).contentRange =
      "bytes " ++ toString s ++ "-" ++ toString e ++ "/" ++ toString fileSize ∧
    (streamRangeBranch header fileSize chunks).contentLength = some (e - s + 1) ∧
    (fileSize : Int) - s < e - s + 1 := by
  refine ⟨rfl, ?_, ?_, by omega⟩ <;> simp [streamRangeBranch, hparse, jsNumStr, jsSpan]

/-- Witness for C10 at the concrete request `bytes=5-100` against a 10-byte
object. -/
theorem c10_end_unclamped_witness :
    (streamRangeBranch ("bytes=5-100".toList) 10 []).contentRange =
      "bytes " ++ toString (5 : Int) ++ "-" ++ toString (100 : Int) ++ "/" ++ toString 10 ∧
    (streamRangeBranch ("bytes=5-100".toList) 10 []).contentLength = some 96 := by
  have h := c10_end_unclamped ("bytes=5-100".toList) 10 [] 5 100 (by decide)
    (by decide) (by decide)
  exact ⟨h.2.1, h.2.2.1⟩

/-- C9: `uploadToR2` chooses its transfer plan purely by file size: strictly
below 100 MB a single-shot put, at or above 100 MB a multipart upload with a
fixed 100 MB part size and 4 concurrently in-flight parts. -/
theorem c9_size_driven_plan (fileSize : Nat) :
    (fileSize < 100 * 1024 * 1024 → uploadToR2plan fileSize = R2Plan.singlePut) ∧
    (100 * 1024 * 1024 ≤ fileSize →
      uploadToR2plan fileSize = R2Plan.multipart (100 * 1024 * 1024) 4) := by
  constructor <;> intro h
  · simp [uploadToR2plan, h]
  · simp [uploadToR2plan, Nat.not_lt.mpr h]

/-- Witness for C9 on both sides of the threshold. -/
theorem c9_size_driven_plan_witness :
    uploadToR2plan 1000 = R2Plan.singlePut ∧
    uploadToR2plan (200 * 1024 * 1024) = R2Plan.multipart (100 * 1024 * 1024) 4 :=
  ⟨(c9_size_driven_plan 1000).1 (by norm_num),
    (c9_size_driven_plan (200 * 1024 * 1024)).2 (by norm_num)⟩

/-- The thumbnail upload loop completes exactly when every file in the list
uploads successfully. -/
theorem uploadThumbsLoop_snd (vid : String) (ok : String → Bool) :
    ∀ fs : List String, (uploadThumbsLoop vid ok fs).2 = fs.all ok := by
  intro fs
  induction fs with
  | nil => rfl
  | cons f rest ih =>
    cases h : ok f
    · simp [uploadThumbsLoop, h]
    · simp [uploadThumbsLoop, h, ih]

/-- The last element of `e :: (l ++ t)` is the last element of `t`. -/
theorem getLast?_cons_append_last {α : Type _} (e : α) (l t : List α) (x : α)
    (h : t.getLast? = some x) : (e :: (l ++ t)).getLast? = some x := by
  rw [← List.cons_append, List.getLast?_append, h]
  rfl

/-- C2, counterexample: a request carrying a video file but an empty `title`
is answered 400 with no record and no processing, yet the multer temp file
written before validation is still on disk — the claim's "no temp file
retained" is false. -/
theorem c2_temp_file_retained_on_400 :
    (runUpload { envAllOk with title := "" }).status = 400 ∧
    (runUpload { envAllOk with title := "" }).saved = none ∧
    (runUpload { envAllOk with title := "" }).events = [Event.respond 400] ∧
    (runUpload { envAllOk with title := "" }).tempFileExists = true := by decide

/-- C2, amended: when the file or the title is missing the handler answers
400 immediately with no probe, no thumbnail generation, no object put, no
record and no thumbnail directory — but the multer temp file survives exactly
when a file part was present. -/
theorem c2_validation_400 (env : UploadEnv)
    (h : env.hasFile = false ∨ env.title = "") :
    runUpload env =
      { status := 400
        saved := none
        tempFileExists := env.hasFile
        tempDirExists := false
        events := [Event.respond 400] } := by
  unfold runUpload
  rw [if_pos h]

/-- Witness for the amended C2 at a concrete file-less request. -/
theorem c2_validation_400_witness :
    runUpload { envAllOk with hasFile := false } =
      { status := 400
        saved := none
        tempFileExists := false
        tempDirExists := false
        events := [Event.respond 400] } :=
  c2_validation_400 { envAllOk with hasFile := false } (Or.inl rfl)

/-- C3, counterexample: an ingestion run in which metadata extraction,
thumbnail generation, the video upload and every thumbnail upload succeed but
the record save throws (e.g. the database is down or the unique `videoId`
index rejects the insert) persists nothing — so a record is *not* persisted
"if and only if" those four steps succeed: the commit itself must succeed
too. -/
theorem c3_record_needs_save_success :
    { envAllOk with saveOk := false }.probeOk = true ∧
    { envAllOk with saveOk := false }.thumbsOk = true ∧
    { envAllOk with saveOk := false }.videoUploadOk = true ∧
    ((sortedThumbFiles { envAllOk with saveOk := false }).all
      { envAllOk with saveOk := false }.thumbUploadOk) = true ∧
    Event.saveRecord ∈ (runUpload { envAllOk with saveOk := false }).events ∧
    (runUpload { envAllOk with saveOk := false }).saved = none := by decide

/-- C3, amended: after validation, a record is persisted if and only if
metadata extraction, thumbnail generation, the video upload, every thumbnail
upload *and the record save itself* all succeed; any failure leaves no
record, so no partial record is ever persisted. -/
theorem c3_commit_iff (env : UploadEnv) (hf : env.hasFile = true)
    (ht : env.title ≠ "") :
    ((runUpload env).saved.isSome = true ↔
      env.probeOk = true ∧ env.thumbsOk = true ∧ env.videoUploadOk = true ∧
      (sortedThumbFiles env).all env.thumbUploadOk = true ∧ env.saveOk = true) := by
  have hcond : ¬(env.hasFile = false ∨ env.title = "") := by
    rintro (h | h)
    · rw [hf] at h; cases h
    · exact ht h
  unfold runUpload
  rw [if_neg hcond]
  cases hp : env.probeOk
  · simp [failWith, hp]
  · cases hthumbs : env.thumbsOk
    · simp [failWith, hp, hthumbs]
    · cases hv : env.videoUploadOk
      · simp [failWith, hp, hthumbs, hv]
      · cases hall : (sortedThumbFiles env).all env.thumbUploadOk
        · simp [failWith, hp, hthumbs, hv, uploadThumbsLoop_snd, hall]
        · cases hsave : env.saveOk
          · simp [failWith, hp, hthumbs, hv, uploadThumbsLoop_snd, hall, hsave]
          · simp [hp, hthumbs, hv, uploadThumbsLoop_snd, hall, hsave]

/-- Witness for the amended C3 at the all-successful environment. -/
theorem c3_commit_iff_witness :
    (runUpload envAllOk).saved.isSome = true ↔
      envAllOk.probeOk = true ∧ envAllOk.thumbsOk = true ∧
      envAllOk.videoUploadOk = true ∧
      (sortedThumbFiles envAllOk).all envAllOk.thumbUploadOk = true ∧
      envAllOk.saveOk = true :=
  c3_commit_iff envAllOk rfl (by decide)

/-- C4: every run that passes validation and then fails anywhere — probing,
thumbnail generation, the video put, a thumbnail put, or the record save —
ends with no temp file, no thumbnail directory, no record, the temp-file
unlink in its trace, and the 500 answer as the *last* event, i.e. after the
cleanup. -/
theorem c4_cleanup_on_failure (env : UploadEnv) (hf : env.hasFile = true)
    (ht : env.title ≠ "")
    (hfail : ¬(env.probeOk = true ∧ env.thumbsOk = true ∧
      env.videoUploadOk = true ∧
      (sortedThumbFiles env).all env.thumbUploadOk = true ∧ env.saveOk = true)) :
    (runUpload env).status = 500 ∧
    (runUpload env).saved = none ∧
    (runUpload env).tempFileExists = false ∧
    (runUpload env).tempDirExists = false ∧
    Event.unlinkTempFile ∈ (runUpload env).events ∧
    (runUpload env).events.getLast? = some (Event.respond 500) := by
  have hcond : ¬(env.hasFile = false ∨ env.title = "") := by
    rintro (h | h)
    · rw [hf] at h; cases h
    · exact ht h
  unfold runUpload
  rw [if_neg hcond]
  cases hp : env.probeOk
  · simp [failWith, hp, List.getLast?_concat]
  · cases hthumbs : env.thumbsOk
    · simp [failWith, hp, hthumbs, List.getLast?_concat]
    · cases hv : env.videoUploadOk
      · simp [failWith, hp, hthumbs, hv, List.getLast?_concat]
      · cases hall : (sortedThumbFiles env).all env.thumbUploadOk
        · simp [failWith, hp, hthumbs, hv, uploadThumbsLoop_snd, hall,
            List.getLast?_concat]
          exact getLast?_cons_append_last _ _ _ _ (by decide)
        · cases hsave : env.saveOk
          · simp [failWith, hp, hthumbs, hv, uploadThumbsLoop_snd, hall, hsave,
              List.getLast?_concat]
            exact getLast?_cons_append_last _ _ _ _ (by decide)
          · exact absurd ⟨hp, hthumbs, hv, hall, hsave⟩ hfail

/-- Witness for C4 at a concrete probe failure. -/
theorem c4_cleanup_on_failure_witness :
    (runUpload { envAllOk with probeOk := false }).status = 500 ∧
    (runUpload { envAllOk with probeOk := false }).saved = none ∧
    (runUpload { envAllOk with probeOk := false }).tempFileExists = false ∧
    (runUpload { envAllOk with probeOk := false }).tempDirExists = false ∧
    Event.unlinkTempFile ∈ (runUpload { envAllOk with probeOk := false }).events ∧
    (runUpload { envAllOk with probeOk := false }).events.getLast? =
      some (Event.respond 500) :=
  c4_cleanup_on_failure { envAllOk with probeOk := false } rfl (by decide) (by decide)

/-- C8: `GET /api/videos/:videoId` on an existing record answers 200 and
increments that record's view count by exactly 1; and no operation of the
system — ingestion, single get, listing, or streaming — ever decreases a
record's view count. -/
theorem c8_views_increment (r : VideoRec) :
    (getVideoHandler (some r)).1 = 200 ∧
    (getVideoHandler (some r)).2 = some { r with views := r.views + 1 } ∧
    ∀ (op : SysOp) (r' : VideoRec), applyOp op (some r) = some r' →
      r.views ≤ r'.views := by
  refine ⟨rfl, rfl, ?_⟩
  intro op r' h
  cases op with
  | ingest env =>
    simp only [applyOp, Option.some.injEq] at h
    exact h ▸ Nat.le_refl _
  | getOne =>
    simp only [applyOp, getVideoHandler, Option.some.injEq] at h
    subst h
    simp [incViews]
  | listAll =>
    simp only [applyOp, Option.some.injEq] at h
    exact h ▸ Nat.le_refl _
  | streamReq hd =>
    simp only [applyOp, Option.some.injEq] at h
    exact h ▸ Nat.le_refl _

/-- Witness for C8 at a concrete record and the single-get operation. -/
theorem c8_views_increment_witness :
    (getVideoHandler (some demoRec)).1 = 200 ∧
    demoRec.views ≤ (incViews demoRec).views :=
  ⟨(c8_views_increment demoRec).1,
    (c8_views_increment demoRec).2.2 SysOp.getOne (incViews demoRec) rfl⟩

/-- The JS code-unit comparison is total. -/
theorem jsStrLeL_total : ∀ a b : List Char, jsStrLeL a b = true ∨ jsStrLeL b a = true := by
  intro a
  induction a with
  | nil => intro b; left; rfl
  | cons x as ih =>
    intro b
    cases b with
    | nil => right; rfl
    | cons y bs =>
      by_cases h1 : x.toNat < y.toNat
      · left; simp [jsStrLeL, h1]
      · by_cases h2 : y.toNat < x.toNat
        · right; simp [jsStrLeL, h2]
        · cases ih bs with
          | inl h => left; simp [jsStrLeL, h1, h2, h]
          | inr h => right; simp [jsStrLeL, h1, h2, h]

/-- Totality of the JS string comparison. -/
theorem jsStrLe_total (a b : String) : jsStrLe a b = true ∨ jsStrLe b a = true :=
  jsStrLeL_total a.toList b.toList

/-- Prepending a common prefix does not change the JS string comparison. -/
theorem jsStrLeL_append : ∀ p a b : List Char, jsStrLeL (p ++ a) (p ++ b) = jsStrLeL a b := by
  intro p a b
  induction p with
  | nil => rfl
  | cons c cs ih => simp [jsStrLeL, Nat.lt_irrefl, ih]

/-- `toList` distributes over string append. -/
theorem toList_append (a b : String) : (a ++ b).toList = a.toList ++ b.toList :=
  String.data_append a b

/-- Prefix cancellation for the JS string comparison on strings. -/
theorem jsStrLe_append (p a b : String) : jsStrLe (p ++ a) (p ++ b) = jsStrLe a b := by
  unfold jsStrLe
  rw [toList_append, toList_append, jsStrLeL_append]

/-- Two thumbnail keys of the same run compare exactly as their filenames. -/
theorem jsStrLe_thumbKey (vid f g : String) :
    jsStrLe (thumbKey vid f) (thumbKey vid g) = jsStrLe f g :=
  jsStrLe_append ("thumbnails/" ++ vid ++ "/") f g

/-- A thumbnail key is recognised as one. -/
theorem isThumbObjectKey_thumbKey (vid f : String) :
    isThumbObjectKey (thumbKey vid f) = true := by
  unfold isThumbObjectKey thumbKey
  rw [toList_append, toList_append, toList_append]
  rfl

/-- A thumbnail upload event projects to its key. -/
theorem thumbKeyOf_thumbKey (vid f : String) :
    thumbKeyOf (Event.putObject (thumbKey vid f)) = some (thumbKey vid f) := by
  simp [thumbKeyOf, isThumbObjectKey_thumbKey]

/-- The video object key is not a thumbnail key. -/
theorem isThumbObjectKey_videos (a b : String) :
    isThumbObjectKey ("videos/" ++ a ++ b) = false := by
  unfold isThumbObjectKey
  rw [toList_append, toList_append]
  rfl

/-- Inserting into a `jsStrLe`-ascending list keeps it ascending. -/
theorem chain'_sortInsert (x : String) :
    ∀ l : List String, List.Chain' (fun a b => jsStrLe a b = true) l →
      List.Chain' (fun a b => jsStrLe a b = true) (sortInsert x l) := by
  intro l
  induction l with
  | nil => intro _; simp [sortInsert]
  | cons y ys ih =>
    intro h
    by_cases hxy : jsStrLe x y = true
    · simp only [sortInsert, if_pos hxy]
      exact List.chain'_cons.mpr ⟨hxy, h⟩
    · simp only [sortInsert, if_neg hxy]
      rw [List.chain'_cons']
      refine ⟨?_, ih h.tail⟩
      intro b hb
      have hyx : jsStrLe y x = true := by
        cases jsStrLe_total x y with
        | inl h' => exact absurd h' hxy
        | inr h' => exact h'
      cases ys with
      | nil =>
        simp [sortInsert] at hb
        exact hb ▸ hyx
      | cons z zs =>
        by_cases hxz : jsStrLe x z = true
        · simp [sortInsert, hxz] at hb
          exact hb ▸ hyx
        · simp [sortInsert, hxz] at hb
          have hyz : jsStrLe y z = true := (List.chain'_cons.mp h).1
          exact hb ▸ hyz

/-- The JS default sort produces a `jsStrLe`-ascending list. -/
theorem chain'_jsSort : ∀ l : List String,
    List.Chain' (fun a b => jsStrLe a b = true) (jsSort l) := by
  intro l
  induction l with
  | nil => simp [jsSort]
  | cons x xs ih => exact chain'_sortInsert x (jsSort xs) ih

/-- The thumbnail keys the upload loop puts inherit the `jsStrLe`-ascending
order of the filename list it walks. -/
theorem chain'_thumbPuts_loop (vid : String) (ok : String → Bool) :
    ∀ fs : List String,
      List.Chain' (fun a b => jsStrLe a b = true) fs →
      List.Chain' (fun a b => jsStrLe a b = true)
        ((uploadThumbsLoop vid ok fs).1.filterMap thumbKeyOf) := by
  intro fs
  induction fs with
  | nil => intro _; simp [uploadThumbsLoop]
  | cons f rest ih =>
    intro h
    cases hok : ok f
    · simp [uploadThumbsLoop, hok, thumbKeyOf_thumbKey]
    · simp only [uploadThumbsLoop, hok, if_pos, List.filterMap_cons,
        thumbKeyOf_thumbKey]
      rw [List.chain'_cons']
      refine ⟨?_, ih h.tail⟩
      intro b hb
      cases rest with
      | nil => simp [uploadThumbsLoop] at hb
      | cons g gs =>
        have hhead : ((uploadThumbsLoop vid ok (g :: gs)).1.filterMap
            thumbKeyOf).head? = some (thumbKey vid g) := by
          cases hg : ok g <;> simp [uploadThumbsLoop, hg, thumbKeyOf_thumbKey]
        rw [hhead] at hb
        have hfg : jsStrLe f g = true := (List.chain'_cons.mp h).1
        have : b = thumbKey vid g := by
          cases hb
          rfl
        rw [this, jsStrLe_thumbKey]
        exact hfg

/-- C5, counterexample: in the standard all-successful run, where the ten
generated thumbnails `thumb_1.jpg` … `thumb_10.jpg` are present, the upload
of `thumb_10.jpg` precedes the upload of `thumb_2.jpg` even though
`2 < 10` — the JS default `.sort()` compares filenames as strings, which
places `thumb_10.jpg` between `thumb_1.jpg` and `thumb_2.jpg`. -/
theorem c5_thumb10_before_thumb2 :
    Event.putObject "thumbnails/abc123/thumb_10.jpg" ∈ (runUpload envAllOk).events ∧
    Event.putObject "thumbnails/abc123/thumb_2.jpg" ∈ (runUpload envAllOk).events ∧
    (runUpload envAllOk).events.findIdx
        (· == Event.putObject "thumbnails/abc123/thumb_10.jpg") <
      (runUpload envAllOk).events.findIdx
        (· == Event.putObject "thumbnails/abc123/thumb_2.jpg") := by decide

/-- C5, amended: in every run, the thumbnail objects are uploaded in
ascending *lexicographic* (JS code-unit) key order — the order of the JS
default string sort, which coincides with ascending numeric index order
only while all indices have the same digit count. -/
theorem c5_lexicographic_upload_order (env : UploadEnv) :
    List.Chain' (fun a b => jsStrLe a b = true) (thumbPutsOf (runUpload env)) := by
  unfold thumbPutsOf runUpload
  by_cases hval : env.hasFile = false ∨ env.title = ""
  · rw [if_pos hval]; simp [thumbKeyOf]
  · rw [if_neg hval]
    cases hp : env.probeOk
    · simp [failWith, thumbKeyOf]
    · cases hthumbs : env.thumbsOk
      · simp [failWith, thumbKeyOf]
      · cases hv : env.videoUploadOk
        · simp [failWith, List.filterMap_cons, thumbKeyOf, isThumbObjectKey_videos]
        · have hloop := chain'_thumbPuts_loop env.tempName env.thumbUploadOk
            (sortedThumbFiles env) (chain'_jsSort _)
          cases hl : (uploadThumbsLoop env.tempName env.thumbUploadOk
              (sortedThumbFiles env)).2
          · simpa [hl, failWith, List.filterMap_append, List.filterMap_cons,
              thumbKeyOf, isThumbObjectKey_videos] using hloop
          · cases hsave : env.saveOk
            · simpa [hl, hsave, failWith, List.filterMap_append, List.filterMap_cons,
                thumbKeyOf, isThumbObjectKey_videos] using hloop
            · simpa [hl, hsave, List.filterMap_append, List.filterMap_cons,
                thumbKeyOf, isThumbObjectKey_videos] using hloop

end Videotube
